import Mathlib

/-!
Verification of the form-validation engine in `js/validation.js`.

The file embeds the validator registry (`registerDefaultValidators`), the
field-validation dispatch (`validateField`), the error presenter
(`showFieldError` / `clearFieldError`), the submit pipeline
(`validateForm` / `handleValidFormSubmit`) and the submission store
(`saveFormData`) as executable Lean definitions, and proves the stated
properties about them.

Modelling conventions:
- A JavaScript string value is a Lean `String`; the falsiness test
  `!value` on a string is `value = ""`.
- `value.replace(/\D/g, '')` is modelled by `stripDigits`, returning the
  list of decimal-digit characters of the string, in order.
- A JavaScript `Date` is modelled abstractly by `SimpleDate`: its local
  calendar year plus a natural number giving the position of the instant
  within that year.  Comparison of `Date` objects (by timestamp) is the
  lexicographic order on `(year, frac)`, which is faithful because the
  calendar year is monotone in the timestamp.  The parse `new Date(value)`
  is an abstract parameter `parse : String → SimpleDate`.
- `localStorage` is an association list from string keys to stored
  (already JSON-parsed) values; a missing or non-array entry read through
  `JSON.parse(...) || []` yields the empty list.
-/

/-- `value.replace(/\D/g, '')`: the decimal digits of `value`, in order
(as a list of characters; JS `\d` is exactly ASCII `0-9`). -/
def stripDigits (s : String) : List Char :=
  s.data.filter (fun c => c.isDigit)

/-- `parseInt` applied to a single decimal-digit character. -/
def charDigit (c : Char) : Nat :=
  c.toNat - 48

/-- The regex `/^(\d)\1{10}$/` of the cpf validator: the string is one
decimal digit repeated 11 times. -/
def isRepeatedCpf (l : List Char) : Bool :=
  match l with
  | [] => false
  | c :: rest => c.isDigit && rest.length == 10 && rest.all (fun x => x == c)

/-- The error message the cpf validator returns for a failed checksum or
repeated digits. -/
def invalidCpfMsg : String := "CPF inválido."

/-- The `'cpf'` validator of `registerDefaultValidators`
(`js/validation.js` lines 41-79): empty passes; strip non-digits; demand
11 digits; reject 11 identical digits; check both weighted check digits.
The loop `for (i = 1; i <= 9) sum += digit[i-1] * (11 - i)` is the fold
over `j = i - 1 ∈ range 9` with weight `10 - j`, and likewise the second
loop over `range 10` with weight `11 - j`. -/
def cpfValidator (value : String) : Option String :=
  if value = "" then none
  else
    let cpf := stripDigits value
    if cpf.length ≠ 11 then some "CPF deve conter 11 dígitos."
    else if isRepeatedCpf cpf then some invalidCpfMsg
    else
      let d := cpf.map charDigit
      let sum1 := (List.range 9).foldl (fun s j => s + d.getD j 0 * (10 - j)) 0
      let r1 := sum1 * 10 % 11
      let r1 := if r1 = 10 ∨ r1 = 11 then 0 else r1
      if r1 ≠ d.getD 9 0 then some invalidCpfMsg
      else
        let sum2 := (List.range 10).foldl (fun s j => s + d.getD j 0 * (11 - j)) 0
        let r2 := sum2 * 10 % 11
        let r2 := if r2 = 10 ∨ r2 = 11 then 0 else r2
        if r2 ≠ d.getD 10 0 then some invalidCpfMsg else none

/-- First check digit exactly as the spec words it: sum of
`digit[i] * (11 - i)` for `i = 1..9` (1-indexed), `remainder = (sum*10) mod 11`,
a remainder of 10 or 11 treated as 0. -/
def specFirstCheckDigit (d : List Nat) : Nat :=
  let s := ∑ i ∈ Finset.range 9, d.getD i 0 * (11 - (i + 1))
  let r := s * 10 % 11
  if r = 10 ∨ r = 11 then 0 else r

/-- Second check digit exactly as the spec words it: the identical formula
over digits 1..10 with weight `(12 - i)`. -/
def specSecondCheckDigit (d : List Nat) : Nat :=
  let s := ∑ i ∈ Finset.range 10, d.getD i 0 * (12 - (i + 1))
  let r := s * 10 % 11
  if r = 10 ∨ r = 11 then 0 else r

/-- A character allowed in every run of the email regex
`/^[^\s@]+@[^\s@]+\.[^\s@]+$/`: neither whitespace nor `@`. -/
def emailChar (c : Char) : Bool :=
  !c.isWhitespace && c != '@'

/-- `emailRegex.test(value)` for `/^[^\s@]+@[^\s@]+\.[^\s@]+$/`: the string
splits as `a ++ "@" ++ domain` with `a` a nonempty run of `emailChar`s and
`domain` a run of `emailChar`s containing a `.` with at least one character
before and after it inside `domain`. -/
def emailTest (s : String) : Bool :=
  let cs := s.data
  let localPart := cs.takeWhile (fun c => c != '@')
  match cs.dropWhile (fun c => c != '@') with
  | [] => false
  | _ :: domain =>
    !localPart.isEmpty && localPart.all emailChar &&
    domain.all emailChar &&
    (List.range domain.length).any (fun i =>
      domain.getD i ' ' == '.' && decide (0 < i) && decide (i + 1 < domain.length))

/-- The `'email'` validator (lines 32-38). -/
def emailValidator (value : String) : Option String :=
  if value ≠ "" && !emailTest value then
    some "E-mail inválido. Verifique o formato."
  else none

/-- The `'telefone'` validator (lines 82-92). -/
def telefoneValidator (value : String) : Option String :=
  if value = "" then none
  else
    let phone := stripDigits value
    if phone.length < 10 ∨ phone.length > 11 then
      some "Telefone deve conter 10 ou 11 dígitos."
    else none

/-- The `'cep'` validator (lines 95-105). -/
def cepValidator (value : String) : Option String :=
  if value = "" then none
  else
    if (stripDigits value).length ≠ 8 then some "CEP deve conter 8 dígitos."
    else none

/-- A parsed JavaScript `Date`, abstracted to its local calendar year and
the position of the instant within that year; timestamp order is the
lexicographic order on the two components. -/
structure SimpleDate where
  year : Int
  frac : Nat
deriving DecidableEq

/-- `a < b` on `Date` timestamps, through the `SimpleDate` abstraction. -/
def dateLt (a b : SimpleDate) : Bool :=
  a.year < b.year || (a.year == b.year && a.frac < b.frac)

/-- Message of the under-18 branch of the `'nasc'` validator. -/
def ageMsg : String := "Você deve ter pelo menos 18 anos."

/-- Message of the future-date branch of the `'nasc'` validator. -/
def futureMsg : String := "Data de nascimento não pode ser no futuro."

/-- The `'nasc'` validator (lines 108-124): empty passes; otherwise
`age = today.getFullYear() - birthDate.getFullYear()`; the under-18 check
runs first, then the future-date check `birthDate > today`.  `birth` is
the result of `new Date(value)` and `today` of `new Date()`. -/
def nascValidator (value : String) (birth today : SimpleDate) : Option String :=
  if value = "" then none
  else
    let age : Int := today.year - birth.year
    if age < 18 then some ageMsg
    else if dateLt today birth then some futureMsg
    else none

/-- The `'minlength'` validator (lines 127-132): JS
`if (value && value.length < minLength)`. -/
def minlengthValidator (value : String) (minLength : Nat) : Option String :=
  if value ≠ "" ∧ value.length < minLength then
    some ("Este campo deve conter no mínimo " ++ toString minLength ++ " caracteres.")
  else none

/-- The `'required'` validator (lines 135-140): JS
`if (!value || value.trim() === '')`. -/
def requiredValidator (value : String) : Option String :=
  if value = "" ∨ value.trim = "" then some "Este campo é obrigatório."
  else none

/-- The `'estado'` validator (lines 143-148): JS `!value || value === ''`,
both of which mean the empty string. -/
def estadoValidator (value : String) : Option String :=
  if value = "" then some "Por favor, selecione um estado."
  else none

/-- A form field as `validateField` observes it: its `id`, current raw
`value`, effective type (`field.type || field.tagName.toLowerCase()`),
whether it carries the `required` attribute, and its parsed `minlength`
attribute when present. -/
structure FormField where
  id : String
  value : String
  fieldType : String
  required : Bool
  minlength : Option Nat
deriving DecidableEq

/-- The kind-specific dispatch of `validateField` (lines 213-227): an
if/else-if chain keyed first on the effective type `'email'`, then on the
field identifiers `'cpf'`, `'telefone'`, `'cep'`, `'nasc'`, `'estado'`. -/
def kindRuleError (parse : String → SimpleDate) (today : SimpleDate) (f : FormField) :
    Option String :=
  if f.fieldType = "email" then emailValidator f.value
  else if f.id = "cpf" then cpfValidator f.value
  else if f.id = "telefone" then telefoneValidator f.value
  else if f.id = "cep" then cepValidator f.value
  else if f.id = "nasc" then nascValidator f.value (parse f.value) today
  else if f.id = "estado" then estadoValidator f.value
  else none

/-- The error computed by `validateField` (lines 198-234) before it is
shown or cleared: the required rule when the field carries `required`,
then — only when no error was produced and the value is non-empty — the
kind-specific rule, then — only when still no error and a `minlength`
attribute is present — the minlength rule. -/
def computeFieldError (parse : String → SimpleDate) (today : SimpleDate) (f : FormField) :
    Option String :=
  let errReq : Option String := if f.required then requiredValidator f.value else none
  match errReq with
  | some e => some e
  | none =>
    if f.value ≠ "" then
      match kindRuleError parse today f with
      | some e => some e
      | none =>
        match f.minlength with
        | some n => minlengthValidator f.value n
        | none => none
    else none

/-- One entry of the persisted submission history: the submitted
field-value pairs spread together with the generation `timestamp`
(`{...data, timestamp}` in `saveFormData`). -/
structure Entry where
  data : List (String × String)
  timestamp : String
deriving DecidableEq

/-- A value held in `localStorage`, already JSON-parsed: either a
submission history array or a single current-data record. -/
inductive StoredValue where
  | subs : List Entry → StoredValue
  | cur : List (String × String) → StoredValue
deriving DecidableEq

/-- `localStorage`, as an association list from keys to parsed values. -/
abbrev Storage : Type := List (String × StoredValue)

/-- `localStorage.getItem` followed by `JSON.parse`. -/
def getItem (st : Storage) (k : String) : Option StoredValue :=
  List.lookup k st

/-- `localStorage.setItem`: the new pair shadows any previous binding of
the same key. -/
def setItem (st : Storage) (k : String) (v : StoredValue) : Storage :=
  (k, v) :: st.filter (fun p => p.1 != k)

/-- `JSON.parse(localStorage.getItem(storageKey)) || []`: a missing entry
(or one that is not a history array) reads as the empty history. -/
def getSubs (st : Storage) (k : String) : List Entry :=
  match getItem st k with
  | some (StoredValue.subs l) => l
  | _ => []

/-- `saveFormData` (lines 344-368): load the history under
`formName ++ "-submissions"`, push the new entry, keep only the last 10
(`submissions.slice(-10)`) when more than 10, store it back, and store
`data` alone under `formName ++ "-current"`. -/
def saveFormData (formName : String) (data : List (String × String))
    (timestamp : String) (st : Storage) : Storage :=
  let storageKey := formName ++ "-submissions"
  let submissions := getSubs st storageKey
  let submissions := submissions ++ [⟨data, timestamp⟩]
  let submissions :=
    if submissions.length > 10 then submissions.drop (submissions.length - 10)
    else submissions
  let st := setItem st storageKey (StoredValue.subs submissions)
  setItem st (formName ++ "-current") (StoredValue.cur data)

/-- The displayed error state of one field and its container, as
`showFieldError` / `clearFieldError` manipulate it: the `is-invalid`
class, the `aria-invalid` attribute, the text of the
`.form-field__error` node when present, and the container's
`form-field--error` class. -/
structure FieldView where
  isInvalid : Bool
  ariaInvalid : Option String
  errorNode : Option String
  containerError : Bool
deriving DecidableEq

/-- The mutable state of a `FormValidator` instance: the `this.fields`
map (as the list of fields, keyed by `id`), the per-field displayed
state, the `this.errors` map, and `localStorage`. -/
structure VState where
  fields : List FormField
  views : List (String × FieldView)
  errors : List (String × String)
  storage : Storage
deriving DecidableEq

/-- Apply a DOM update to the view of one field id. -/
def updateView (vs : List (String × FieldView)) (k : String)
    (f : FieldView → FieldView) : List (String × FieldView) :=
  vs.map (fun p => if p.1 = k then (p.1, f p.2) else p)

/-- `showFieldError` (lines 268-293): a no-op when `this.fields` has no
entry for the id; otherwise record the message in `this.errors`, add the
`is-invalid` class, set `aria-invalid="true"`, replace any previous error
node by a fresh one carrying the message, and mark the container. -/
def showFieldErrorS (st : VState) (fieldId message : String) : VState :=
  match st.fields.find? (fun f => f.id == fieldId) with
  | none => st
  | some _ =>
    { st with
      errors := (fieldId, message) :: st.errors.filter (fun p => p.1 != fieldId),
      views := updateView st.views fieldId
        (fun _ => ⟨true, some "true", some message, true⟩) }

/-- `clearFieldError` (lines 299-317): a no-op when `this.fields` has no
entry for the id; otherwise delete the error, remove the `is-invalid`
class, set `aria-invalid="false"`, remove the error node, and unmark the
container. -/
def clearFieldErrorS (st : VState) (fieldId : String) : VState :=
  match st.fields.find? (fun f => f.id == fieldId) with
  | none => st
  | some _ =>
    { st with
      errors := st.errors.filter (fun p => p.1 != fieldId),
      views := updateView st.views fieldId
        (fun _ => ⟨false, some "false", none, false⟩) }

/-- `validateField` (lines 198-244): compute the error, then either show
it (returning `false`) or clear the field (returning `true`). -/
def validateFieldS (parse : String → SimpleDate) (today : SimpleDate)
    (st : VState) (f : FormField) : VState × Bool :=
  match computeFieldError parse today f with
  | some e => (showFieldErrorS st f.id e, false)
  | none => (clearFieldErrorS st f.id, true)

/-- One iteration of the `inputs.forEach` loop of `validateForm`:
validate the field on the current state and let `isValid` drop to
`false` when it fails. -/
def validateFormStep (parse : String → SimpleDate) (today : SimpleDate)
    (acc : VState × Bool) (f : FormField) : VState × Bool :=
  let r := validateFieldS parse today acc.1 f
  (r.1, acc.2 && r.2)

/-- `validateForm` (lines 250-261): validate every field of the form in
order, with `isValid` dropping to `false` as soon as one fails. -/
def validateFormS (parse : String → SimpleDate) (today : SimpleDate)
    (st : VState) : VState × Bool :=
  st.fields.foldl (validateFormStep parse today) (st, true)

/-- `Object.fromEntries(new FormData(this.form))`: the current
field-value pairs of the form. -/
def collectFormData (st : VState) : List (String × String) :=
  st.fields.map (fun f => (f.id, f.value))

/-- `handleValidFormSubmit` (lines 322-338): collect the data, persist it
through `saveFormData`, reset the form (all values emptied), and clear
the in-memory error map. -/
def handleValidFormSubmit (formName timestamp : String) (st : VState) : VState :=
  let data := collectFormData st
  { st with
    storage := saveFormData formName data timestamp st.storage,
    fields := st.fields.map (fun f => { f with value := "" }),
    errors := [] }

/-- The submit handler (lines 184-190): run `validateForm`; persist and
clean up only when it returns `true`. -/
def onSubmit (parse : String → SimpleDate) (today : SimpleDate)
    (formName timestamp : String) (st : VState) : VState :=
  let r := validateFormS parse today st
  if r.2 then handleValidFormSubmit formName timestamp r.1 else r.1

/-! ### Helper lemmas -/

theorem foldl_range_weighted (d : List Nat) (c : Nat) (n : Nat) :
    (List.range n).foldl (fun s j => s + d.getD j 0 * (c - j)) 0
      = ∑ i ∈ Finset.range n, d.getD i 0 * (c - i) := by
  induction n with
  | zero => simp
  | succ k ih =>
    rw [List.range_succ, List.foldl_append, Finset.sum_range_succ, ih]
    rfl

theorem codeCheck1_eq_spec (d : List Nat) :
    (if (List.range 9).foldl (fun s j => s + d.getD j 0 * (10 - j)) 0 * 10 % 11 = 10 ∨
        (List.range 9).foldl (fun s j => s + d.getD j 0 * (10 - j)) 0 * 10 % 11 = 11
     then 0
     else (List.range 9).foldl (fun s j => s + d.getD j 0 * (10 - j)) 0 * 10 % 11)
    = specFirstCheckDigit d := by
  unfold specFirstCheckDigit
  rw [foldl_range_weighted]
  have h : ∑ i ∈ Finset.range 9, d.getD i 0 * (11 - (i + 1))
      = ∑ i ∈ Finset.range 9, d.getD i 0 * (10 - i) :=
    Finset.sum_congr rfl (fun i _ => by rw [Nat.succ_sub_succ])
  rw [h]

theorem codeCheck2_eq_spec (d : List Nat) :
    (if (List.range 10).foldl (fun s j => s + d.getD j 0 * (11 - j)) 0 * 10 % 11 = 10 ∨
        (List.range 10).foldl (fun s j => s + d.getD j 0 * (11 - j)) 0 * 10 % 11 = 11
     then 0
     else (List.range 10).foldl (fun s j => s + d.getD j 0 * (11 - j)) 0 * 10 % 11)
    = specSecondCheckDigit d := by
  unfold specSecondCheckDigit
  rw [foldl_range_weighted]
  have h : ∑ i ∈ Finset.range 10, d.getD i 0 * (12 - (i + 1))
      = ∑ i ∈ Finset.range 10, d.getD i 0 * (11 - i) :=
    Finset.sum_congr rfl (fun i _ => by rw [Nat.succ_sub_succ])
  rw [h]

/-! ### Claims -/

/-- C1: the cpf rule computes the first check digit as the weighted sum
`digit[i] * (11 - i)` over the first 9 digits with `remainder = (sum*10) mod 11`
(10 and 11 mapped to 0), the second check digit by the identical formula
over digits 1..10 with weight `(12 - i)`, and passes exactly when both
equal digits 10 and 11; its only failure message on an 11-digit
non-repeated value is the invalid message, and `"52998224725"` passes. -/
theorem cpf_checkdigit_correct (value : String)
    (h11 : (stripDigits value).length = 11)
    (hrep : isRepeatedCpf (stripDigits value) = false) :
    (cpfValidator value = none ↔
      (specFirstCheckDigit ((stripDigits value).map charDigit)
          = ((stripDigits value).map charDigit).getD 9 0
        ∧ specSecondCheckDigit ((stripDigits value).map charDigit)
          = ((stripDigits value).map charDigit).getD 10 0))
    ∧ (cpfValidator value = none ∨ cpfValidator value = some invalidCpfMsg)
    ∧ cpfValidator "52998224725" = none := by
  have hv : value ≠ "" := by
    intro he
    rw [he] at h11
    exact absurd h11 (by decide)
  refine ⟨?_, ?_, by decide⟩
  · unfold cpfValidator
    rw [if_neg hv]
    simp only [h11, hrep, ne_eq, not_true_eq_false, if_false, Bool.false_eq_true,
      OfNat.ofNat_ne_zero, not_false_eq_true, codeCheck1_eq_spec, codeCheck2_eq_spec]
    split_ifs <;> simp_all
  · unfold cpfValidator
    rw [if_neg hv]
    simp only [h11, hrep, ne_eq, not_true_eq_false, if_false, Bool.false_eq_true,
      not_false_eq_true]
    split_ifs <;> simp

/-- Witness for C1 at the concrete valid id `"52998224725"`. -/
theorem cpf_checkdigit_correct_witness :
    (stripDigits "52998224725").length = 11 ∧
    isRepeatedCpf (stripDigits "52998224725") = false ∧
    cpfValidator "52998224725" = none :=
  ⟨by decide, by decide,
    (cpf_checkdigit_correct "52998224725" (by decide) (by decide)).2.2⟩

/-- C2: every string that normalizes to 11 identical digits is rejected
by the cpf rule with the invalid message — universally, for every
repeated digit, not just particular examples. -/
theorem cpf_repeated_digits_invalid (value : String) (c : Char)
    (h : stripDigits value = List.replicate 11 c) :
    cpfValidator value = some invalidCpfMsg := by
  have hv : value ≠ "" := by
    intro he
    rw [he] at h
    have hl := congrArg List.length h
    rw [List.length_replicate] at hl
    exact absurd hl (by decide)
  have hc : c.isDigit = true := by
    have hm : c ∈ stripDigits value := by
      rw [h]
      simp [List.mem_replicate]
    exact (List.mem_filter.mp hm).2
  have hlen : (stripDigits value).length = 11 := by rw [h]; simp
  have hr : isRepeatedCpf (stripDigits value) = true := by
    rw [h]
    show isRepeatedCpf (List.replicate (10 + 1) c) = true
    rw [List.replicate_succ]
    unfold isRepeatedCpf
    simp only [hc, List.length_replicate, List.all_eq_true, Bool.true_and,
      beq_self_eq_true, Bool.and_eq_true, beq_iff_eq]
    exact fun x hx => List.eq_of_mem_replicate hx
  unfold cpfValidator
  rw [if_neg hv]
  simp only [hlen, hr, ne_eq, not_true_eq_false, if_false, if_true]

/-- Witness for C2 at the concrete repeated value `"11111111111"`. -/
theorem cpf_repeated_digits_invalid_witness :
    stripDigits "11111111111" = List.replicate 11 '1' ∧
    cpfValidator "11111111111" = some invalidCpfMsg :=
  ⟨by decide, cpf_repeated_digits_invalid "11111111111" '1' (by decide)⟩

/-- C3 counterexample: the claim states that `minLength(v, n)` fails for
every string with `v.length < n`, but the empty string has length
`0 < 3` and the rule passes it (the JS guard `if (value && ...)` skips
falsy values). -/
theorem minlength_empty_counterexample :
    minlengthValidator "" 3 = none ∧ ("" : String).length < 3 := by decide

/-- C3 amended: `minLength(v, n)` fails iff `v` is non-empty and
`v.length < n`; the boundary examples of the claim hold:
`minLength("abc", 3)` passes and `minLength("ab", 3)` fails. -/
theorem minlength_fails_iff (v : String) (n : Nat) :
    ((minlengthValidator v n).isSome = true ↔ (v ≠ "" ∧ v.length < n))
    ∧ minlengthValidator "abc" 3 = none
    ∧ (minlengthValidator "ab" 3).isSome = true := by
  refine ⟨?_, by decide, by decide⟩
  unfold minlengthValidator
  split <;> simp_all

/-- C4 counterexample: the claim states the cep rule passes iff exactly
8 digits remain after stripping, but the empty string passes while
stripping it leaves 0 digits. -/
theorem cep_empty_counterexample :
    cepValidator "" = none ∧ (stripDigits "").length ≠ 8 := by decide

/-- C4 amended: the cep rule passes iff the value is empty or exactly 8
digits remain after stripping non-digits; `"01310-100"` passes and
`"0131-100"` fails. -/
theorem cep_passes_iff (v : String) :
    (cepValidator v = none ↔ (v = "" ∨ (stripDigits v).length = 8))
    ∧ cepValidator "01310-100" = none
    ∧ (cepValidator "0131-100").isSome = true := by
  refine ⟨?_, by decide, by decide⟩
  unfold cepValidator
  split
  · simp_all
  · split <;> simp_all

/-- C5 counterexample: the claim states a strictly future parsed date
fails with the future-date message, but for the future date
`⟨3000, 0⟩` against today `⟨2026, 100⟩` the rule returns the under-18
message instead (the naive age check runs first and a future date always
has age ≤ 0). -/
theorem nasc_future_counterexample :
    dateLt ⟨2026, 100⟩ ⟨3000, 0⟩ = true ∧
    nascValidator "3000-01-01" ⟨3000, 0⟩ ⟨2026, 100⟩ = some ageMsg ∧
    ageMsg ≠ futureMsg := by decide

/-- C5 amended: for every non-empty input, a strictly future parsed date
fails with the under-18 message (the age check fires first, since a
future date has naive age ≤ 0 < 18); any input with naive age below 18
fails with the same message; and the future-date message is unreachable. -/
theorem nasc_future_age_message (value : String) (birth today : SimpleDate)
    (hv : value ≠ "") :
    (dateLt today birth = true → nascValidator value birth today = some ageMsg)
    ∧ (today.year - birth.year < 18 → nascValidator value birth today = some ageMsg)
    ∧ nascValidator value birth today ≠ some futureMsg := by
  have hage : dateLt today birth = true → today.year - birth.year < 18 := by
    intro hlt
    unfold dateLt at hlt
    simp only [Bool.or_eq_true, Bool.and_eq_true, decide_eq_true_eq, beq_iff_eq] at hlt
    rcases hlt with h | ⟨h, _⟩ <;> omega
  refine ⟨?_, ?_, ?_⟩
  · intro hlt
    unfold nascValidator
    rw [if_neg hv, if_pos (hage hlt)]
  · intro h18
    unfold nascValidator
    rw [if_neg hv, if_pos h18]
  · unfold nascValidator
    rw [if_neg hv]
    by_cases h18 : today.year - birth.year < 18
    · rw [if_pos h18]
      simp only [ne_eq, Option.some.injEq]
      decide
    · rw [if_neg h18]
      have hfut : dateLt today birth = false := by
        cases hd : dateLt today birth
        · rfl
        · exact absurd (hage hd) h18
      simp [hfut]

/-- Witness for C5: a concrete non-empty, strictly future input on which
the rule produces the under-18 message. -/
theorem nasc_future_age_message_witness :
    nascValidator "2030-01-01" ⟨2030, 0⟩ ⟨2026, 50⟩ = some ageMsg :=
  (nasc_future_age_message "2030-01-01" ⟨2030, 0⟩ ⟨2026, 50⟩ (by decide)).1 (by decide)

/-- C10: every built-in rule except `required` and `estado` returns no
error for the empty string, and `required` and `estado` both reject it. -/
theorem empty_value_only_required_estado_reject :
    emailValidator "" = none ∧ cpfValidator "" = none ∧
    telefoneValidator "" = none ∧ cepValidator "" = none ∧
    (∀ b t : SimpleDate, nascValidator "" b t = none) ∧
    (∀ n : Nat, minlengthValidator "" n = none) ∧
    (requiredValidator "").isSome = true ∧ (estadoValidator "").isSome = true := by
  refine ⟨by decide, by decide, by decide, by decide, ?_, ?_, by decide, by decide⟩
  · intro b t
    simp [nascValidator]
  · intro n
    simp [minlengthValidator]

theorem updateView_const_idem (vs : List (String × FieldView)) (k : String)
    (c : FieldView) :
    updateView (updateView vs k (fun _ => c)) k (fun _ => c)
      = updateView vs k (fun _ => c) := by
  induction vs with
  | nil => rfl
  | cons p t ih =>
    by_cases h : p.1 = k
    · simp [updateView, h] at ih ⊢
      exact ih
    · simp [updateView, h] at ih ⊢
      exact ih

theorem filter_key_cons_self (l : List (String × String)) (fid m : String) :
    ((fid, m) :: l.filter (fun p => p.1 != fid)).filter (fun p => p.1 != fid)
      = l.filter (fun p => p.1 != fid) := by
  rw [List.filter_cons_of_neg (by simp)]
  rw [List.filter_filter]
  simp

/-- C9: the error presenter is idempotent in both directions: a second
`showFieldError` with the same field and message, and a second
`clearFieldError`, are no-ops on the validator state (error map and
displayed state). -/
theorem show_clear_error_idempotent (st : VState) (fieldId message : String) :
    showFieldErrorS (showFieldErrorS st fieldId message) fieldId message
      = showFieldErrorS st fieldId message
    ∧ clearFieldErrorS (clearFieldErrorS st fieldId) fieldId
      = clearFieldErrorS st fieldId := by
  constructor
  · cases hf : st.fields.find? (fun f => f.id == fieldId) with
    | none =>
      unfold showFieldErrorS
      simp only [hf]
    | some f =>
      unfold showFieldErrorS
      simp only [hf]
      congr 1
      · exact updateView_const_idem st.views fieldId _
      · exact congrArg (List.cons (fieldId, message))
          (filter_key_cons_self st.errors fieldId message)
  · cases hf : st.fields.find? (fun f => f.id == fieldId) with
    | none =>
      unfold clearFieldErrorS
      simp only [hf]
    | some f =>
      unfold clearFieldErrorS
      simp only [hf]
      congr 1
      · exact updateView_const_idem st.views fieldId _
      · rw [List.filter_filter]
        simp

/-- C6: field validation evaluates rules in a fixed short-circuit order:
a failing required rule is reported and nothing else runs; with no
required failure and an empty value no rule runs; otherwise the
kind-specific rule's error wins, and minlength runs only when the kind
rule produced none; and a validation pass records at most one error entry
for the field. -/
theorem validateField_order_single_error (parse : String → SimpleDate)
    (today : SimpleDate) (f : FormField) (st : VState) :
    (∀ m, f.required = true → requiredValidator f.value = some m →
        computeFieldError parse today f = some m)
    ∧ (f.value = "" → f.required = false → computeFieldError parse today f = none)
    ∧ (∀ e, (f.required = true → requiredValidator f.value = none) → f.value ≠ "" →
        kindRuleError parse today f = some e →
        computeFieldError parse today f = some e)
    ∧ (∀ n, (f.required = true → requiredValidator f.value = none) → f.value ≠ "" →
        kindRuleError parse today f = none → f.minlength = some n →
        computeFieldError parse today f = minlengthValidator f.value n)
    ∧ (f ∈ st.fields →
        ((validateFieldS parse today st f).1.errors.countP
          (fun p => p.1 == f.id)) ≤ 1) := by
  refine ⟨?_, ?_, ?_, ?_, ?_⟩
  · intro m hreq hval
    unfold computeFieldError
    simp only [hreq, if_true, hval]
  · intro hval hreq
    unfold computeFieldError
    simp only [hreq, Bool.false_eq_true, if_false, hval, ne_eq, not_true_eq_false]
  · intro e hreq hval hkind
    unfold computeFieldError
    cases hr : f.required with
    | false =>
      simp only [hr, Bool.false_eq_true, if_false, hval, ne_eq, not_false_eq_true,
        if_true, hkind]
    | true =>
      simp only [hr, if_true, hreq hr, hval, ne_eq, not_false_eq_true, if_true, hkind]
  · intro n hreq hval hkind hmin
    unfold computeFieldError
    cases hr : f.required with
    | false =>
      simp only [hr, Bool.false_eq_true, if_false, hval, ne_eq, not_false_eq_true,
        if_true, hkind, hmin]
    | true =>
      simp only [hr, if_true, hreq hr, hval, ne_eq, not_false_eq_true, if_true,
        hkind, hmin]
  · intro hmem
    have hfind : ∃ g, st.fields.find? (fun g => g.id == f.id) = some g := by
      have : (st.fields.find? (fun g => g.id == f.id)).isSome = true := by
        rw [List.find?_isSome]
        exact ⟨f, hmem, by simp⟩
      exact Option.isSome_iff_exists.mp this
    obtain ⟨g, hg⟩ := hfind
    unfold validateFieldS
    cases he : computeFieldError parse today f with
    | some e =>
      simp only [showFieldErrorS, hg]
      simp only [List.countP_cons, beq_self_eq_true, if_true]
      have hz : (st.errors.filter (fun p => p.1 != f.id)).countP
          (fun p => p.1 == f.id) = 0 := by
        rw [List.countP_eq_zero]
        intro a ha
        have := (List.mem_filter.mp ha).2
        simp only [bne_iff_ne, ne_eq] at this
        simp [this]
      omega
    | none =>
      simp only [clearFieldErrorS, hg]
      have hz : (st.errors.filter (fun p => p.1 != f.id)).countP
          (fun p => p.1 == f.id) = 0 := by
        rw [List.countP_eq_zero]
        intro a ha
        have := (List.mem_filter.mp ha).2
        simp only [bne_iff_ne, ne_eq] at this
        simp [this]
      omega

/-- Witness for C6: a concrete required, empty field whose validation
reports the required message and records at most one error entry. -/
theorem validateField_order_single_error_witness :
    computeFieldError (fun _ => ⟨2000, 0⟩) ⟨2026, 0⟩ ⟨"nome", "", "text", true, none⟩
      = some "Este campo é obrigatório."
    ∧ ((validateFieldS (fun _ => ⟨2000, 0⟩) ⟨2026, 0⟩
        ⟨[⟨"nome", "", "text", true, none⟩], [], [], []⟩
        ⟨"nome", "", "text", true, none⟩).1.errors.countP
          (fun p => p.1 == "nome")) ≤ 1 := by
  have h := validateField_order_single_error (fun _ => ⟨2000, 0⟩) ⟨2026, 0⟩
    ⟨"nome", "", "text", true, none⟩ ⟨[⟨"nome", "", "text", true, none⟩], [], [], []⟩
  exact ⟨h.1 _ rfl (by decide), h.2.2.2.2 (by decide)⟩

/-- `submissions.slice(-10)` composed with the push: the most recent 10
entries of a history list (the whole list when it has at most 10). -/
def lastTen (l : List Entry) : List Entry := l.drop (l.length - 10)

theorem getItem_setItem_self (st : Storage) (k : String) (v : StoredValue) :
    getItem (setItem st k v) k = some v := by
  simp [getItem, setItem, List.lookup]

theorem lookup_filter_ne {β : Type} (st : List (String × β)) (k k' : String)
    (h : k' ≠ k) :
    List.lookup k' (st.filter (fun p => p.1 != k)) = List.lookup k' st := by
  induction st with
  | nil => rfl
  | cons a t ih =>
    obtain ⟨a1, a2⟩ := a
    by_cases ha : a1 = k
    · rw [List.filter_cons_of_neg (by simp [ha])]
      rw [ih]
      have hne : (k' == a1) = false := by
        subst ha
        simp [h]
      simp only [List.lookup, hne]
    · rw [List.filter_cons_of_pos (by simp [ha])]
      simp only [List.lookup]
      rw [ih]

theorem getItem_setItem_ne (st : Storage) (k k' : String) (v : StoredValue)
    (h : k' ≠ k) :
    getItem (setItem st k v) k' = getItem st k' := by
  unfold getItem setItem
  simp only [List.lookup]
  have hne : (k' == k) = false := by simp [h]
  rw [hne]
  exact lookup_filter_ne st k k' h

theorem submissions_key_ne_current (formName : String) :
    formName ++ "-current" ≠ formName ++ "-submissions" := by
  intro he
  have hd := congrArg String.data he
  rw [String.data_append, String.data_append] at hd
  have := List.append_cancel_left hd
  have hs := congrArg String.mk this
  simp at hs

theorem getSubs_saveFormData (formName ts : String)
    (data : List (String × String)) (st : Storage) :
    getSubs (saveFormData formName data ts st) (formName ++ "-submissions")
      = lastTen (getSubs st (formName ++ "-submissions") ++ [⟨data, ts⟩]) := by
  unfold saveFormData getSubs
  rw [getItem_setItem_ne _ _ _ _ (submissions_key_ne_current formName).symm]
  rw [getItem_setItem_self]
  unfold lastTen
  split_ifs with h
  · rfl
  · rw [Nat.sub_eq_zero_of_le (by omega), List.drop_zero]

theorem drop_append_le {α : Type} (xs ys : List α) (n : Nat) (h : n ≤ xs.length) :
    (xs ++ ys).drop n = xs.drop n ++ ys := by
  induction xs generalizing n with
  | nil =>
    have : n = 0 := by simpa using h
    simp [this]
  | cons a t ih =>
    cases n with
    | zero => simp
    | succ m =>
      simp only [List.cons_append, List.drop_succ_cons]
      exact ih m (by simpa using h)

theorem lastTen_append (xs ys : List Entry) :
    lastTen (lastTen xs ++ ys) = lastTen (xs ++ ys) := by
  unfold lastTen
  have ha : xs.length - 10 ≤ xs.length := Nat.sub_le _ _
  have hlen : (xs.drop (xs.length - 10) ++ ys).length
      = (xs.length - (xs.length - 10)) + ys.length := by simp
  rw [hlen, ← drop_append_le xs ys (xs.length - 10) ha, List.drop_drop]
  congr 1
  simp only [List.length_append]
  omega

theorem lastTen_append_right (old es : List Entry) (h : 10 ≤ es.length) :
    lastTen (old ++ es) = es.drop (es.length - 10) := by
  unfold lastTen
  have hidx : (old ++ es).length - 10 = old.length + (es.length - 10) := by
    simp only [List.length_append]
    omega
  rw [hidx, ← List.drop_drop, List.drop_left]

theorem getSubs_saveFold (formName : String)
    (p0 : (List (String × String)) × String)
    (saves : List ((List (String × String)) × String)) (st : Storage) :
    getSubs ((p0 :: saves).foldl (fun s q => saveFormData formName q.1 q.2 s) st)
        (formName ++ "-submissions")
      = lastTen (getSubs st (formName ++ "-submissions")
          ++ (p0 :: saves).map (fun q => (⟨q.1, q.2⟩ : Entry))) := by
  induction saves generalizing p0 st with
  | nil =>
    simp only [List.foldl, List.map]
    exact getSubs_saveFormData formName p0.2 p0.1 st
  | cons q t ih =>
    show getSubs ((q :: t).foldl (fun s q => saveFormData formName q.1 q.2 s)
        (saveFormData formName p0.1 p0.2 st)) (formName ++ "-submissions") = _
    rw [ih q (saveFormData formName p0.1 p0.2 st)]
    rw [getSubs_saveFormData formName p0.2 p0.1 st]
    rw [lastTen_append]
    rw [List.append_assoc]
    rfl

/-- C7: each save appends exactly one new entry (the data plus the
generation timestamp) to the history stored under
`formName ++ "-submissions"`, truncated to the most recent 10; the data
alone is persisted under `formName ++ "-current"`; and after any
sequence of 11 or more saves the stored history is exactly the 10 most
recent entries, in order, so it has length 10. -/
theorem saveFormData_appends_truncates (formName ts : String)
    (data : List (String × String)) (st : Storage) :
    (getSubs (saveFormData formName data ts st) (formName ++ "-submissions")
      = lastTen (getSubs st (formName ++ "-submissions") ++ [⟨data, ts⟩]))
    ∧ (getItem (saveFormData formName data ts st) (formName ++ "-current")
      = some (StoredValue.cur data))
    ∧ (∀ saves : List ((List (String × String)) × String), 11 ≤ saves.length →
        getSubs (saves.foldl (fun s q => saveFormData formName q.1 q.2 s) st)
            (formName ++ "-submissions")
          = (saves.map (fun q => (⟨q.1, q.2⟩ : Entry))).drop (saves.length - 10)
        ∧ (getSubs (saves.foldl (fun s q => saveFormData formName q.1 q.2 s) st)
            (formName ++ "-submissions")).length = 10) := by
  refine ⟨getSubs_saveFormData formName ts data st, ?_, ?_⟩
  · unfold saveFormData
    exact getItem_setItem_self _ _ _
  · intro saves hlen
    match saves with
    | p0 :: rest =>
      have heq := getSubs_saveFold formName p0 rest st
      have hmap : 10 ≤ ((p0 :: rest).map (fun q => (⟨q.1, q.2⟩ : Entry))).length := by
        simp only [List.length_map]
        simpa using Nat.le_of_succ_le hlen
      rw [heq, lastTen_append_right _ _ hmap]
      constructor
      · congr 1
        simp
      · simp only [List.length_drop, List.length_map]
        simp only [List.length_map] at hmap
        simp only [List.length_cons] at *
        omega

/-- Witness for C7: eleven concrete saves leave a stored history of
exactly the 10 most recent entries. -/
theorem saveFormData_appends_truncates_witness :
    11 ≤ (List.replicate 11 (([("a", "v")], "t"))).length ∧
    (getSubs ((List.replicate 11 ([("a", "v")], "t")).foldl
        (fun s q => saveFormData "form" q.1 q.2 s) [])
      ("form" ++ "-submissions")).length = 10 :=
  ⟨by decide,
    ((saveFormData_appends_truncates "form" "t0" [] []).2.2
      (List.replicate 11 ([("a", "v")], "t")) (by decide)).2⟩

theorem validateFieldS_preserves (parse : String → SimpleDate) (today : SimpleDate)
    (st : VState) (f : FormField) :
    (validateFieldS parse today st f).1.fields = st.fields
    ∧ (validateFieldS parse today st f).1.storage = st.storage := by
  unfold validateFieldS
  cases computeFieldError parse today f with
  | some e =>
    simp only
    unfold showFieldErrorS
    cases st.fields.find? (fun g => g.id == f.id) <;> simp
  | none =>
    simp only
    unfold clearFieldErrorS
    cases st.fields.find? (fun g => g.id == f.id) <;> simp

theorem foldl_validateForm_preserves (parse : String → SimpleDate)
    (today : SimpleDate) (l : List FormField) (s : VState) (b : Bool) :
    (l.foldl (validateFormStep parse today) (s, b)).1.fields = s.fields
    ∧ (l.foldl (validateFormStep parse today) (s, b)).1.storage = s.storage := by
  induction l generalizing s b with
  | nil => exact ⟨rfl, rfl⟩
  | cons f t ih =>
    simp only [List.foldl_cons, validateFormStep]
    obtain ⟨h1, h2⟩ := ih (validateFieldS parse today s f).1
      (b && (validateFieldS parse today s f).2)
    obtain ⟨g1, g2⟩ := validateFieldS_preserves parse today s f
    exact ⟨h1.trans g1, h2.trans g2⟩

theorem foldl_validateForm_false (parse : String → SimpleDate)
    (today : SimpleDate) (l : List FormField) (s : VState) :
    (l.foldl (validateFormStep parse today) (s, false)).2 = false := by
  induction l generalizing s with
  | nil => rfl
  | cons f t ih =>
    simp only [List.foldl_cons, validateFormStep, Bool.false_and]
    exact ih (validateFieldS parse today s f).1

theorem foldl_validateForm_true_init (parse : String → SimpleDate)
    (today : SimpleDate) (l : List FormField) (s : VState) (b : Bool)
    (h : (l.foldl (validateFormStep parse today) (s, b)).2 = true) : b = true := by
  cases b with
  | true => rfl
  | false => rw [foldl_validateForm_false] at h; exact h.symm ▸ rfl

theorem foldl_validateForm_all_pass_errors (parse : String → SimpleDate)
    (today : SimpleDate) (l : List FormField) (s : VState) (b : Bool)
    (hsub : ∀ f ∈ l, (s.fields.find? (fun g => g.id == f.id)).isSome = true)
    (hv : (l.foldl (validateFormStep parse today) (s, b)).2 = true) :
    (l.foldl (validateFormStep parse today) (s, b)).1.errors
      = s.errors.filter (fun p => !(l.any (fun f => p.1 == f.id))) := by
  induction l generalizing s b with
  | nil =>
    simp
  | cons f t ih =>
    simp only [List.foldl_cons, validateFormStep] at hv ⊢
    have hr2 : (validateFieldS parse today s f).2 = true := by
      have hb := foldl_validateForm_true_init parse today t
        (validateFieldS parse today s f).1 (b && (validateFieldS parse today s f).2) hv
      exact (Bool.and_eq_true _ _).mp hb |>.2
    have hnone : computeFieldError parse today f = none := by
      cases he : computeFieldError parse today f with
      | none => rfl
      | some e =>
        unfold validateFieldS at hr2
        rw [he] at hr2
        exact absurd hr2 (by simp)
    have hfind := hsub f (List.mem_cons_self f t)
    obtain ⟨g, hg⟩ := Option.isSome_iff_exists.mp hfind
    have hr1 : (validateFieldS parse today s f).1
        = { s with
            errors := s.errors.filter (fun p => p.1 != f.id),
            views := updateView s.views f.id
              (fun _ => ⟨false, some "false", none, false⟩) } := by
      unfold validateFieldS
      rw [hnone]
      unfold clearFieldErrorS
      rw [hg]
    rw [ih _ _ ?hsub' ?hv']
    case hsub' =>
      intro x hx
      rw [hr1]
      exact hsub x (List.mem_cons_of_mem f hx)
    case hv' => exact hv
    rw [hr1]
    simp only [List.filter_filter]
    congr 1
    funext p
    simp only [List.any_cons, Bool.not_or, bne]
    rw [Bool.and_comm]

/-- C8: the submit handler persists only when `validateForm` returns
`true`; in that case the error map is already empty right after the
validating pass (given that every recorded error belongs to a field of
the form), stays empty after `handleValidFormSubmit` clears it, and the
persisted storage is exactly one `saveFormData` of the collected data;
when any field fails, the storage is untouched. -/
theorem submit_persists_only_when_valid (parse : String → SimpleDate)
    (today : SimpleDate) (formName ts : String) (st : VState)
    (hkeys : ∀ p ∈ st.errors, ∃ f ∈ st.fields, f.id = p.1) :
    ((validateFormS parse today st).2 = false →
      (onSubmit parse today formName ts st).storage = st.storage)
    ∧ ((validateFormS parse today st).2 = true →
        (validateFormS parse today st).1.errors = []
        ∧ (onSubmit parse today formName ts st).errors = []
        ∧ (onSubmit parse today formName ts st).storage
          = saveFormData formName (collectFormData (validateFormS parse today st).1)
              ts st.storage) := by
  constructor
  · intro hfail
    simp only [onSubmit, hfail, Bool.false_eq_true, if_false]
    exact (foldl_validateForm_preserves parse today st.fields st true).2
  · intro hok
    have herr : (validateFormS parse today st).1.errors = [] := by
      unfold validateFormS at hok ⊢
      rw [foldl_validateForm_all_pass_errors parse today st.fields st true ?hsub hok]
      case hsub =>
        intro f hf
        rw [List.find?_isSome]
        exact ⟨f, hf, by simp⟩
      rw [List.filter_eq_nil_iff]
      intro p hp
      obtain ⟨f, hf, hid⟩ := hkeys p hp
      have hany : (st.fields.any fun g => p.1 == g.id) = true := by
        rw [List.any_eq_true]
        exact ⟨f, hf, by simp [hid]⟩
      simp [hany]
    refine ⟨herr, ?_, ?_⟩
    · simp only [onSubmit, hok, if_true]
      rfl
    · simp only [onSubmit, hok, if_true]
      unfold handleValidFormSubmit
      simp only
      congr 1
      exact (foldl_validateForm_preserves parse today st.fields st true).2

/-- Witness for C8: a concrete one-field form that validates; submitting
it empties the error map and persists exactly one save. -/
theorem submit_persists_only_when_valid_witness :
    (validateFormS (fun _ => ⟨2000, 0⟩) ⟨2026, 0⟩
      ⟨[⟨"a", "x", "text", false, none⟩], [], [("a", "old")], []⟩).2 = true ∧
    (onSubmit (fun _ => ⟨2000, 0⟩) ⟨2026, 0⟩ "form" "t1"
      ⟨[⟨"a", "x", "text", false, none⟩], [], [("a", "old")], []⟩).errors = [] ∧
    (onSubmit (fun _ => ⟨2000, 0⟩) ⟨2026, 0⟩ "form" "t1"
      ⟨[⟨"a", "x", "text", false, none⟩], [], [("a", "old")], []⟩).storage
      = saveFormData "form" [("a", "x")] "t1" [] := by
  have h := submit_persists_only_when_valid (fun _ => ⟨2000, 0⟩) ⟨2026, 0⟩ "form" "t1"
    ⟨[⟨"a", "x", "text", false, none⟩], [], [("a", "old")], []⟩ (by decide)
  refine ⟨by decide, (h.2 (by decide)).2.1, ?_⟩
  have h3 := (h.2 (by decide)).2.2
  exact h3.trans (by decide)
